import Mathlib

/-!
Shallow embedding of `prepare_public_csv.py` (Bottin repository).

A member record is a mapping from field name to string value; we embed it
as an association list `Row := List (String × String)` with Python-dict
semantics: `rget` is `row.get(k, '')`, `rhas` is `k in row`, `dset` is
`row[k] = v` (update in place if the key exists, append otherwise).

Python's `str.strip` is embedded as `pyStrip` (ASCII whitespace);
`str.lower` as `pyLower`, which lowercases ASCII letters and the Latin-1
uppercase range (covering every accented character appearing in the
program's constants); `str.startswith` and the `in` substring test as
character-list prefix/infix tests.
-/

namespace Bottin

abbrev Row := List (String × String)

/-- Python `row.get(k, '')`: first binding of `k`, or the empty string. -/
def rget (r : Row) (k : String) : String :=
  match r.find? (fun p => p.1 == k) with
  | some p => p.2
  | none => ""

/-- Python `k in row`. -/
def rhas (r : Row) (k : String) : Bool :=
  r.any (fun p => p.1 == k)

/-- Update the value stored at key `k` (all bindings of `k`, keys kept). -/
def rset (r : Row) (k v : String) : Row :=
  r.map (fun p => if p.1 == k then (p.1, v) else p)

/-- Python dict assignment `row[k] = v`: update if present, else append. -/
def dset (r : Row) (k v : String) : Row :=
  if rhas r k then rset r k v else r ++ [(k, v)]

/-- Python `s.strip()`: drop leading and trailing whitespace. -/
def pyStrip (s : String) : String :=
  String.mk (((s.data.dropWhile Char.isWhitespace).reverse.dropWhile
    Char.isWhitespace).reverse)

/-- Lowercase ASCII `A`–`Z` and Latin-1 `À`–`Þ` (except `×`), as Python
`str.lower` does on those characters. -/
def pyLowerChar (c : Char) : Char :=
  if 65 ≤ c.toNat ∧ c.toNat ≤ 90 then Char.ofNat (c.toNat + 32)
  else if 192 ≤ c.toNat ∧ c.toNat ≤ 222 ∧ c.toNat ≠ 215 then Char.ofNat (c.toNat + 32)
  else c

/-- Python `s.lower()`. -/
def pyLower (s : String) : String := String.mk (s.data.map pyLowerChar)

/-- Python `s.startswith(pat)`. -/
def strStarts (s pat : String) : Bool := pat.data.isPrefixOf s.data

/-- Python `pat in s` (substring containment). -/
def strContains (s pat : String) : Bool :=
  (List.range (s.data.length + 1)).any (fun i => pat.data.isPrefixOf (s.data.drop i))

-- ─── Configuration constants of prepare_public_csv.py ───

def COL_PRENOM : String := "Prénom"
def COL_NOM : String := "Nom de la famille"
def COL_EMAIL : String := "E-mail / Courriel"
def COL_EMAIL2 : String := "Autre courriel"
def COL_STATUT : String := "Statut actuel"
def COL_INSTITUTION : String := "Institution / organisation 1"
def COL_TYPE : String := "Type d'adhesion"
def COL_CONSENT : String := "Autorisez-vous le RSN à vous créer un profil de membre public"

def COLS_SENSITIVE : List String :=
  [COL_EMAIL, COL_EMAIL2, COL_STATUT, COL_INSTITUTION,
   "Réseau 1", "Expertise", "Thèmes d'intérêt", "Projet de recherche",
   "Étudiant.e.s", "Référée par", "Droit de vote", "ORCID",
   "CV / LinkedIn", "Évaluateur du RSN - nouv. formulaire"]

def PLACEHOLDER : List (String × String) :=
  [(COL_EMAIL, "membre@rsn-placeholder.ca"),
   (COL_INSTITUTION, "Institution non divulguée"),
   (COL_STATUT, "Non divulgué")]

/-- Python `PLACEHOLDER.get(col, '')`. -/
def placeholderGet (col : String) : String :=
  match PLACEHOLDER.find? (fun p => p.1 == col) with
  | some p => p.2
  | none => ""

def STATS_ROW_MARKER : String := "__STATS_EXCLUDED__"

-- ─── Core pipeline ───

/-- The four excluded-member counters (`excluded_stats` dict). -/
structure ExcludedStats where
  total : Nat
  regulier : Nat
  etudiant : Nat
  partenaire : Nat
deriving DecidableEq

/-- Accumulator of the classification pass: the `public_rows` and
`pending_rows` lists and the `excluded_stats` counters. -/
structure ExportState where
  public_rows : List Row
  pending_rows : List Row
  excluded_stats : ExcludedStats
deriving DecidableEq

def initState : ExportState := ⟨[], [], ⟨0, 0, 0, 0⟩⟩

/-- Line 134: a row with blank first and last name is skipped. -/
def discardRow (row : Row) : Bool :=
  (pyStrip (rget row COL_PRENOM) == "") && (pyStrip (rget row COL_NOM) == "")

/-- Line 136: `row.get(COL_CONSENT, '').strip().lower()`. -/
def consentOf (row : Row) : String := pyLower (pyStrip (rget row COL_CONSENT))

/-- Line 137: `row.get(COL_TYPE, '').strip().lower()`. -/
def typeOf (row : Row) : String := pyLower (pyStrip (rget row COL_TYPE))

/-- Lines 145–151: bump the total, then at most one membership-type
counter, checked regular, then student, then partner. -/
def countExcluded (st : ExcludedStats) (type_adh : String) : ExcludedStats :=
  let st0 : ExcludedStats := { st with total := st.total + 1 }
  if strContains type_adh "régulier" || strContains type_adh "regulier" then
    { st0 with regulier := st0.regulier + 1 }
  else if strContains type_adh "étudiant" || strContains type_adh "etudiant" then
    { st0 with etudiant := st0.etudiant + 1 }
  else if strContains type_adh "partenaire" then
    { st0 with partenaire := st0.partenaire + 1 }
  else st0

/-- Lines 158–162: copy the row, overwrite each sensitive column that is
present with its placeholder (empty if the column has no placeholder). -/
def maskRow (row : Row) : Row :=
  COLS_SENSITIVE.foldl
    (fun masked col => if rhas masked col then rset masked col (placeholderGet col) else masked)
    row

/-- Lines 132–162: one step of the classification loop. -/
def processRow (s : ExportState) (row : Row) : ExportState :=
  if discardRow row then s
  else if strStarts (consentOf row) "oui" then
    { s with public_rows := s.public_rows ++ [row] }
  else if strStarts (consentOf row) "non" then
    { s with excluded_stats := countExcluded s.excluded_stats (typeOf row) }
  else
    { s with pending_rows := s.pending_rows ++ [maskRow row] }

/-- Lines 168–173: the counters packed as `"total,regulier,etudiant,partenaire"`. -/
def packedCounts (st : ExcludedStats) : String :=
  toString st.total ++ "," ++ toString st.regulier ++ "," ++
    toString st.etudiant ++ "," ++ toString st.partenaire

/-- Lines 164–174: the synthetic statistics row. -/
def stats_row (headers : List String) (st : ExcludedStats) : Row :=
  let base : Row := headers.map (fun h => (h, ""))
  let r1 := dset base COL_PRENOM STATS_ROW_MARKER
  let r2 := dset r1 COL_NOM ""
  let r3 := dset r2 COL_EMAIL (packedCounts st)
  dset r3 COL_CONSENT "stats"

/-- Row serialization as `csv.DictWriter(..., fieldnames=headers, extrasaction='ignore')` does it: one cell per header, `''` when the record has no value,
extra record keys dropped. -/
def writeRow (headers : List String) (r : Row) : List String :=
  headers.map (fun h => rget r h)

/-- Lines 116–120: the first required column missing from the headers,
if any (the script exits naming it). -/
def firstMissing (headers : List String) : Option String :=
  [COL_PRENOM, COL_NOM, COL_CONSENT].find? (fun c => !(headers.contains c))

/-- Lines 112–182 of `prepare_public_csv`: header check, classification
pass, stats row, assembly, serialization (header row first). -/
def prepare_public_csv (headers : List String) (rows : List Row) :
    Except String (List (List String)) :=
  match firstMissing headers with
  | some c => Except.error c
  | none =>
    let st := rows.foldl processRow initState
    let all_public := st.public_rows ++ st.pending_rows ++
      [stats_row headers st.excluded_stats]
    Except.ok (headers :: all_public.map (writeRow headers))

-- ─── Derived classification predicates (read off the branch conditions
-- of the loop, used to state what the fold produces) ───

/-- Branch condition of line 139: kept row whose consent starts `oui`. -/
def isPublicRow (row : Row) : Bool :=
  !discardRow row && strStarts (consentOf row) "oui"

/-- Branch condition of line 143: kept row whose consent starts `non`
(and not `oui`). -/
def isExcludedRow (row : Row) : Bool :=
  !discardRow row && !strStarts (consentOf row) "oui" &&
    strStarts (consentOf row) "non"

/-- Branch condition of line 153: kept row with any other consent. -/
def isPendingRow (row : Row) : Bool :=
  !discardRow row && !strStarts (consentOf row) "oui" &&
    !strStarts (consentOf row) "non"

/-- The counters after the full pass over `rows`. -/
def excludedStatsOf (rows : List Row) : ExcludedStats :=
  (rows.filter isExcludedRow).foldl
    (fun st row => countExcluded st (typeOf row)) ⟨0, 0, 0, 0⟩

/-- The masking loop generalized to an arbitrary column list, for induction. -/
def maskFold (cols : List String) (row : Row) : Row :=
  cols.foldl
    (fun masked col => if rhas masked col then rset masked col (placeholderGet col) else masked)
    row

-- ─── Concrete inputs used to instantiate the theorems ───

/-- A header list containing the three required columns plus the email and
membership-type columns. -/
def exHeaders : List String := [COL_PRENOM, COL_NOM, COL_CONSENT, COL_EMAIL, COL_TYPE]

/-- First row of the spec's worked example, with exactly the fields the
example lists. -/
def exRow1 : Row := [(COL_CONSENT, "Oui"), (COL_EMAIL, "a@x.com"), (COL_TYPE, "Régulier")]

/-- Second row of the spec's worked example. -/
def exRow2 : Row := [(COL_CONSENT, "Non"), (COL_TYPE, "Étudiant")]

/-- Third row of the spec's worked example. -/
def exRow3 : Row := [(COL_CONSENT, ""), (COL_EMAIL, "b@x.com"), (COL_TYPE, "Partenaire")]

/-- The example rows augmented with non-empty first names. -/
def exRow1n : Row := (COL_PRENOM, "A") :: exRow1

def exRow2n : Row := (COL_PRENOM, "B") :: exRow2

def exRow3n : Row := (COL_PRENOM, "C") :: exRow3

/-- A consenting member row. -/
def wPublic : Row := [(COL_PRENOM, "A"), (COL_CONSENT, "Oui"), (COL_EMAIL, "a@x.com")]

/-- A pending (empty-consent) member row. -/
def wPending : Row := [(COL_PRENOM, "C"), (COL_CONSENT, ""), (COL_EMAIL, "b@x.com")]

/-- A refusing member row with a student membership type. -/
def wExcl : Row := [(COL_PRENOM, "X"), (COL_CONSENT, "Non"), (COL_TYPE, "Étudiant")]

/-- A pending row that has no binding at all for the primary email column. -/
def wNoEmail : Row := [(COL_PRENOM, "D"), (COL_CONSENT, "")]

/-- A nameless row (blank first and last name). -/
def wNameless : Row := [(COL_CONSENT, "Non"), (COL_TYPE, "Régulier")]

/-- A header list missing the consent column. -/
def badHeaders : List String := [COL_PRENOM, COL_NOM, COL_EMAIL]

theorem maskRow_eq_maskFold (row : Row) : maskRow row = maskFold COLS_SENSITIVE row := rfl

-- ─── Association-list lemmas ───

theorem rget_cons (p : String × String) (r : Row) (k : String) :
    rget (p :: r) k = if p.1 == k then p.2 else rget r k := by
  by_cases h : p.1 == k <;> simp [rget, List.find?_cons, h]

theorem rhas_cons (p : String × String) (r : Row) (k : String) :
    rhas (p :: r) k = (p.1 == k || rhas r k) := by
  simp [rhas]

theorem rset_cons (p : String × String) (r : Row) (k v : String) :
    rset (p :: r) k v = (if p.1 == k then (p.1, v) else p) :: rset r k v := rfl

theorem rhas_rset (r : Row) (k v k' : String) : rhas (rset r k v) k' = rhas r k' := by
  induction r with
  | nil => rfl
  | cons p r ih =>
    rw [rset_cons, rhas_cons, rhas_cons, ih]
    by_cases h : p.1 == k <;> simp [h]

theorem keys_rset (r : Row) (k v : String) :
    (rset r k v).map Prod.fst = r.map Prod.fst := by
  induction r with
  | nil => rfl
  | cons p r ih =>
    rw [rset_cons, List.map_cons, List.map_cons, ih]
    by_cases h : p.1 == k <;> simp [h]

theorem rget_rset_self (r : Row) (k v : String) (h : rhas r k = true) :
    rget (rset r k v) k = v := by
  induction r with
  | nil => simp [rhas] at h
  | cons p r ih =>
    rw [rhas_cons, Bool.or_eq_true] at h
    rw [rset_cons]
    by_cases hp : p.1 == k
    · simp [rget_cons, hp]
    · have hp' : (p.1 == k) = false := by simpa using hp
      simp only [hp', Bool.false_eq_true, false_or] at h
      simp [rget_cons, hp, ih h]

theorem rset_of_not_rhas (r : Row) (k v : String) (h : rhas r k = false) :
    rset r k v = r := by
  induction r with
  | nil => rfl
  | cons p r ih =>
    rw [rhas_cons, Bool.or_eq_false_iff] at h
    rw [rset_cons, ih h.2]
    simp [h.1]

theorem rget_rset_ne (r : Row) (k v k' : String) (h : ¬(k' = k)) :
    rget (rset r k v) k' = rget r k' := by
  induction r with
  | nil => rfl
  | cons p r ih =>
    rw [rset_cons]
    by_cases hp : p.1 == k
    · have hp' : p.1 = k := by simpa using hp
      have h2 : (p.1 == k') = false := by
        simp only [beq_eq_false_iff_ne, ne_eq, hp']
        intro hc; exact h hc.symm
      simp [rget_cons, hp, h2, ih]
    · by_cases hq : p.1 == k' <;> simp [rget_cons, hp, hq, ih]

theorem rget_of_not_rhas (r : Row) (k : String) (h : rhas r k = false) :
    rget r k = "" := by
  induction r with
  | nil => rfl
  | cons p r ih =>
    rw [rhas_cons, Bool.or_eq_false_iff] at h
    simp [rget_cons, h.1, ih h.2]

theorem rget_append_single (r : Row) (k v : String) (h : rhas r k = false) :
    rget (r ++ [(k, v)]) k = v := by
  induction r with
  | nil => simp [rget_cons]
  | cons p r ih =>
    rw [rhas_cons, Bool.or_eq_false_iff] at h
    rw [List.cons_append, rget_cons]
    simp [h.1, ih h.2]

theorem rget_append_single_ne (r : Row) (k v k' : String) (h : ¬(k' = k)) :
    rget (r ++ [(k, v)]) k' = rget r k' := by
  induction r with
  | nil =>
    have hk : (k == k') = false := by
      simp only [beq_eq_false_iff_ne, ne_eq]
      intro hc; exact h hc.symm
    simp [rget_cons, hk, rget]
  | cons p r ih =>
    rw [List.cons_append, rget_cons, rget_cons, ih]

theorem rget_dset_self (r : Row) (k v : String) : rget (dset r k v) k = v := by
  unfold dset
  by_cases h : rhas r k = true
  · rw [if_pos h]
    exact rget_rset_self r k v h
  · rw [if_neg h]
    exact rget_append_single r k v (by simpa using h)

theorem rget_dset_ne (r : Row) (k v k' : String) (h : ¬(k' = k)) :
    rget (dset r k v) k' = rget r k' := by
  unfold dset
  by_cases hh : rhas r k = true
  · rw [if_pos hh]
    exact rget_rset_ne r k v k' h
  · rw [if_neg hh]
    exact rget_append_single_ne r k v k' h

-- ─── maskRow lemmas ───

theorem maskFold_cons (c : String) (cols : List String) (row : Row) :
    maskFold (c :: cols) row =
      maskFold cols (if rhas row c then rset row c (placeholderGet c) else row) := rfl

theorem rhas_maskFold (cols : List String) (row : Row) (k : String) :
    rhas (maskFold cols row) k = rhas row k := by
  induction cols generalizing row with
  | nil => rfl
  | cons c cols ih =>
    rw [maskFold_cons]
    by_cases h : rhas row c = true
    · rw [if_pos h, ih, rhas_rset]
    · rw [if_neg h, ih]

theorem keys_maskFold (cols : List String) (row : Row) :
    (maskFold cols row).map Prod.fst = row.map Prod.fst := by
  induction cols generalizing row with
  | nil => rfl
  | cons c cols ih =>
    rw [maskFold_cons]
    by_cases h : rhas row c = true
    · rw [if_pos h, ih, keys_rset]
    · rw [if_neg h, ih]

theorem rget_maskFold_not_mem (cols : List String) (row : Row) (k : String)
    (h : k ∉ cols) : rget (maskFold cols row) k = rget row k := by
  induction cols generalizing row with
  | nil => rfl
  | cons c cols ih =>
    have hk : ¬(k = c) := fun hc => h (hc ▸ List.mem_cons_self c cols)
    have htl : k ∉ cols := fun hc => h (List.mem_cons_of_mem c hc)
    rw [maskFold_cons]
    by_cases hr : rhas row c = true
    · rw [if_pos hr, ih _ htl, rget_rset_ne _ _ _ _ hk]
    · rw [if_neg hr, ih _ htl]

theorem rget_maskFold_mem (cols : List String) (row : Row) (k : String)
    (hmem : k ∈ cols) (hhas : rhas row k = true) :
    rget (maskFold cols row) k = placeholderGet k := by
  induction cols generalizing row with
  | nil => cases hmem
  | cons c cols ih =>
    rw [maskFold_cons]
    by_cases hk : k = c
    · subst hk
      rw [if_pos hhas]
      by_cases hmem' : k ∈ cols
      · exact ih _ hmem' (by rw [rhas_rset]; exact hhas)
      · rw [rget_maskFold_not_mem _ _ _ hmem']
        exact rget_rset_self _ _ _ hhas
    · have hmem' : k ∈ cols := by
        rcases List.mem_cons.mp hmem with h | h
        · exact absurd h hk
        · exact h
      by_cases hr : rhas row c = true
      · rw [if_pos hr]
        exact ih _ hmem' (by rw [rhas_rset]; exact hhas)
      · rw [if_neg hr]
        exact ih _ hmem' hhas

theorem rget_maskFold_absent (cols : List String) (row : Row) (k : String)
    (h : rhas row k = false) : rget (maskFold cols row) k = rget row k := by
  induction cols generalizing row with
  | nil => rfl
  | cons c cols ih =>
    rw [maskFold_cons]
    by_cases hr : rhas row c = true
    · rw [if_pos hr]
      by_cases hk : k = c
      · subst hk
        rw [hr] at h
        cases h
      · rw [ih _ (by rw [rhas_rset]; exact h), rget_rset_ne _ _ _ _ hk]
    · rw [if_neg hr, ih _ h]

-- ─── Consent-prefix exclusivity ───

theorem strStarts_oui_not_non (s : String) (h : strStarts s "oui" = true) :
    strStarts s "non" = false := by
  unfold strStarts at *
  cases hd : s.data with
  | nil => rw [hd] at h; simp [List.isPrefixOf] at h
  | cons c cs =>
    rw [hd] at h
    have hc : c = 'o' := by
      simp only [show ("oui".data) = ['o', 'u', 'i'] from rfl, List.isPrefixOf,
        Bool.and_eq_true, beq_iff_eq] at h
      exact h.1.symm
    subst hc
    simp [show ("non".data) = ['n', 'o', 'n'] from rfl, List.isPrefixOf]

-- ─── processRow branch lemmas ───

theorem processRow_discard (s : ExportState) (row : Row) (h : discardRow row = true) :
    processRow s row = s := by
  simp [processRow, h]

theorem processRow_public (s : ExportState) (row : Row) (h1 : discardRow row = false)
    (h2 : strStarts (consentOf row) "oui" = true) :
    processRow s row = { s with public_rows := s.public_rows ++ [row] } := by
  simp [processRow, h1, h2]

theorem processRow_excluded (s : ExportState) (row : Row) (h1 : discardRow row = false)
    (h2 : strStarts (consentOf row) "oui" = false)
    (h3 : strStarts (consentOf row) "non" = true) :
    processRow s row =
      { s with excluded_stats := countExcluded s.excluded_stats (typeOf row) } := by
  simp [processRow, h1, h2, h3]

theorem processRow_pending (s : ExportState) (row : Row) (h1 : discardRow row = false)
    (h2 : strStarts (consentOf row) "oui" = false)
    (h3 : strStarts (consentOf row) "non" = false) :
    processRow s row = { s with pending_rows := s.pending_rows ++ [maskRow row] } := by
  simp [processRow, h1, h2, h3]

/-- What the classification pass computes, as filters of the input in
original order plus a fold for the counters. -/
theorem foldl_processRow (rows : List Row) (s : ExportState) :
    rows.foldl processRow s =
      ⟨s.public_rows ++ rows.filter isPublicRow,
       s.pending_rows ++ (rows.filter isPendingRow).map maskRow,
       (rows.filter isExcludedRow).foldl
         (fun st row => countExcluded st (typeOf row)) s.excluded_stats⟩ := by
  induction rows generalizing s with
  | nil => simp
  | cons row rows ih =>
    rw [List.foldl_cons, ih]
    cases hd : discardRow row with
    | true =>
      rw [processRow_discard s row hd]
      simp [isPublicRow, isPendingRow, isExcludedRow, hd, List.filter_cons]
    | false =>
      cases ho : strStarts (consentOf row) "oui" with
      | true =>
        rw [processRow_public s row hd ho]
        simp [isPublicRow, isPendingRow, isExcludedRow, hd, ho, List.filter_cons]
      | false =>
        cases hn : strStarts (consentOf row) "non" with
        | true =>
          rw [processRow_excluded s row hd ho hn]
          simp [isPublicRow, isPendingRow, isExcludedRow, hd, ho, hn, List.filter_cons]
        | false =>
          rw [processRow_pending s row hd ho hn]
          simp [isPublicRow, isPendingRow, isExcludedRow, hd, ho, hn, List.filter_cons]

/-- The whole run, when the required columns are present. -/
theorem prepare_public_csv_ok (headers : List String) (rows : List Row)
    (h : firstMissing headers = none) :
    prepare_public_csv headers rows =
      Except.ok (headers ::
        (rows.filter isPublicRow ++ (rows.filter isPendingRow).map maskRow ++
          [stats_row headers (excludedStatsOf rows)]).map (writeRow headers)) := by
  unfold prepare_public_csv
  rw [h]
  rw [show rows.foldl processRow initState = rows.foldl processRow ⟨[], [], ⟨0, 0, 0, 0⟩⟩ from rfl]
  rw [foldl_processRow]
  simp [excludedStatsOf]

-- ─── Header-check lemmas ───

theorem contains_eq_true_iff (l : List String) (a : String) :
    l.contains a = true ↔ a ∈ l :=
  ⟨List.mem_of_elem_eq_true, List.elem_eq_true_of_mem⟩

theorem firstMissing_eq_none_iff (headers : List String) :
    firstMissing headers = none ↔
      COL_PRENOM ∈ headers ∧ COL_NOM ∈ headers ∧ COL_CONSENT ∈ headers := by
  unfold firstMissing
  rw [List.find?_eq_none]
  simp [contains_eq_true_iff]

-- ─── stats_row field lemmas ───

theorem rget_blank (headers : List String) (k : String) :
    rget (headers.map (fun h => (h, ""))) k = "" := by
  induction headers with
  | nil => rfl
  | cons h hs ih =>
    rw [List.map_cons, rget_cons]
    by_cases hh : h == k <;> simp [hh, ih]

theorem rget_stats_row_consent (headers : List String) (st : ExcludedStats) :
    rget (stats_row headers st) COL_CONSENT = "stats" :=
  rget_dset_self _ _ _

theorem rget_stats_row_email (headers : List String) (st : ExcludedStats) :
    rget (stats_row headers st) COL_EMAIL = packedCounts st := by
  unfold stats_row
  rw [rget_dset_ne _ _ _ _ (by decide), rget_dset_self]

theorem rget_stats_row_nom (headers : List String) (st : ExcludedStats) :
    rget (stats_row headers st) COL_NOM = "" := by
  unfold stats_row
  rw [rget_dset_ne _ _ _ _ (by decide), rget_dset_ne _ _ _ _ (by decide),
    rget_dset_self]

theorem rget_stats_row_prenom (headers : List String) (st : ExcludedStats) :
    rget (stats_row headers st) COL_PRENOM = STATS_ROW_MARKER := by
  unfold stats_row
  rw [rget_dset_ne _ _ _ _ (by decide), rget_dset_ne _ _ _ _ (by decide),
    rget_dset_ne _ _ _ _ (by decide), rget_dset_self]

theorem rget_stats_row_other (headers : List String) (st : ExcludedStats)
    (k : String) (h1 : ¬(k = COL_PRENOM)) (h2 : ¬(k = COL_NOM))
    (h3 : ¬(k = COL_EMAIL)) (h4 : ¬(k = COL_CONSENT)) :
    rget (stats_row headers st) k = "" := by
  unfold stats_row
  rw [rget_dset_ne _ _ _ _ h4, rget_dset_ne _ _ _ _ h3,
    rget_dset_ne _ _ _ _ h2, rget_dset_ne _ _ _ _ h1, rget_blank]

-- ─── Serialization lemmas ───

theorem writeRow_congr (headers : List String) (a b : Row)
    (h : writeRow headers a = writeRow headers b) (k : String) (hk : k ∈ headers) :
    rget a k = rget b k := by
  unfold writeRow at h
  rw [List.map_eq_map_iff] at h
  exact h k hk

theorem header_row_congr (headers : List String) (b : Row)
    (h : headers = writeRow headers b) (k : String) (hk : k ∈ headers) :
    k = rget b k := by
  have h' : headers.map id = headers.map (fun x => rget b x) := by
    rw [List.map_id]
    exact h
  rw [List.map_eq_map_iff] at h'
  exact h' k hk

/-- Consent is a structural column: masking never touches it. -/
theorem consentOf_maskRow (row : Row) : consentOf (maskRow row) = consentOf row := by
  unfold consentOf
  rw [maskRow_eq_maskFold, rget_maskFold_not_mem _ _ _ (by decide)]

/-- No record assembled into the export has a consent value that
normalizes to a "non"-led string: public rows start with "oui", pending
rows keep their non-"non" consent through masking, and the statistics row
carries the literal tag "stats". -/
theorem mem_output_not_non (headers : List String) (rows : List Row) (r : Row)
    (hr : r ∈ rows.filter isPublicRow ++ (rows.filter isPendingRow).map maskRow ++
      [stats_row headers (excludedStatsOf rows)]) :
    strStarts (consentOf r) "non" = false := by
  rcases List.mem_append.mp hr with h | h
  · rcases List.mem_append.mp h with h | h
    · have hp := List.of_mem_filter h
      unfold isPublicRow at hp
      rw [Bool.and_eq_true] at hp
      exact strStarts_oui_not_non _ hp.2
    · rcases List.mem_map.mp h with ⟨r', hr', rfl⟩
      rw [consentOf_maskRow]
      have hp := List.of_mem_filter hr'
      unfold isPendingRow at hp
      rw [Bool.and_eq_true] at hp
      rw [Bool.not_eq_true'] at hp
      exact hp.2
  · rw [List.mem_singleton] at h
    subst h
    unfold consentOf
    rw [rget_stats_row_consent]
    decide

/-- C1: a kept row whose normalized consent begins with "non" appears in
no row of the serialized output table; processing it leaves the public and
pending lists untouched, adds exactly 1 to the total excluded counter, and
adds exactly 1 to at most one of the regular/student/partner counters,
chosen by substring match on the normalized membership type in the order
regular, student, partner (none matching: only the total moves). -/
theorem claim1_excluded_row_counted_and_absent
    (headers : List String) (rows : List Row) (s : ExportState) (row : Row)
    (hname : discardRow row = false)
    (hnon : strStarts (consentOf row) "non" = true)
    (hc : COL_CONSENT ∈ headers) :
    (processRow s row).public_rows = s.public_rows ∧
    (processRow s row).pending_rows = s.pending_rows ∧
    (processRow s row).excluded_stats.total = s.excluded_stats.total + 1 ∧
    (if strContains (typeOf row) "régulier" || strContains (typeOf row) "regulier" then
       (processRow s row).excluded_stats.regulier = s.excluded_stats.regulier + 1 ∧
       (processRow s row).excluded_stats.etudiant = s.excluded_stats.etudiant ∧
       (processRow s row).excluded_stats.partenaire = s.excluded_stats.partenaire
     else if strContains (typeOf row) "étudiant" || strContains (typeOf row) "etudiant" then
       (processRow s row).excluded_stats.regulier = s.excluded_stats.regulier ∧
       (processRow s row).excluded_stats.etudiant = s.excluded_stats.etudiant + 1 ∧
       (processRow s row).excluded_stats.partenaire = s.excluded_stats.partenaire
     else if strContains (typeOf row) "partenaire" then
       (processRow s row).excluded_stats.regulier = s.excluded_stats.regulier ∧
       (processRow s row).excluded_stats.etudiant = s.excluded_stats.etudiant ∧
       (processRow s row).excluded_stats.partenaire = s.excluded_stats.partenaire + 1
     else
       (processRow s row).excluded_stats.regulier = s.excluded_stats.regulier ∧
       (processRow s row).excluded_stats.etudiant = s.excluded_stats.etudiant ∧
       (processRow s row).excluded_stats.partenaire = s.excluded_stats.partenaire) ∧
    (∀ table, prepare_public_csv headers rows = Except.ok table →
      writeRow headers row ∉ table) := by
  have hoi : strStarts (consentOf row) "oui" = false := by
    cases ho : strStarts (consentOf row) "oui"
    · rfl
    · rw [strStarts_oui_not_non _ ho] at hnon
      cases hnon
  rw [processRow_excluded s row hname hoi hnon]
  refine ⟨rfl, rfl, ?_, ?_, ?_⟩
  · unfold countExcluded
    split_ifs <;> rfl
  · unfold countExcluded
    split_ifs <;> simp
  · intro table htab hmem
    cases hfm : firstMissing headers with
    | some c => simp [prepare_public_csv, hfm] at htab
    | none =>
      rw [prepare_public_csv_ok headers rows hfm] at htab
      rw [Except.ok.injEq] at htab
      subst htab
      rcases List.mem_cons.mp hmem with heq | hmem'
      · have hcg := header_row_congr headers row heq.symm COL_CONSENT hc
        unfold consentOf at hnon
        rw [← hcg] at hnon
        exact absurd hnon (by decide)
      · rcases List.mem_map.mp hmem' with ⟨r, hr, hwr⟩
        have hcons := writeRow_congr headers r row hwr COL_CONSENT hc
        have hnr : strStarts (consentOf r) "non" = true := by
          unfold consentOf
          rw [hcons]
          exact hnon
        rw [mem_output_not_non headers rows r hr] at hnr
        cases hnr

/-- Witness: a kept "Non"/"Étudiant" row satisfies the hypotheses of C1
and the student counter is the one that moves. -/
theorem claim1_excluded_row_counted_and_absent_witness :
    discardRow wExcl = false ∧ strStarts (consentOf wExcl) "non" = true ∧
      COL_CONSENT ∈ exHeaders ∧
      (processRow initState wExcl).excluded_stats.total =
        initState.excluded_stats.total + 1 :=
  ⟨by decide, by decide, by decide,
    (claim1_excluded_row_counted_and_absent exHeaders [] initState wExcl
      (by decide) (by decide) (by decide)).2.2.1⟩

/-- C2: a kept row is handled by exactly one of three branches, chosen by
first match on the trimmed, case-folded consent value: "oui"-led goes to
the public list, otherwise "non"-led goes to the excluded counters,
anything else goes (masked) to the pending list; a missing consent field
reads as the empty string and no value is an error (the step function is
total). -/
theorem claim2_consent_trichotomy (s : ExportState) (row : Row)
    (hkeep : discardRow row = false) :
    ((strStarts (consentOf row) "oui" = true ∧
        processRow s row = { s with public_rows := s.public_rows ++ [row] }) ∨
      (strStarts (consentOf row) "oui" = false ∧
        strStarts (consentOf row) "non" = true ∧
        processRow s row =
          { s with excluded_stats := countExcluded s.excluded_stats (typeOf row) }) ∨
      (strStarts (consentOf row) "oui" = false ∧
        strStarts (consentOf row) "non" = false ∧
        processRow s row = { s with pending_rows := s.pending_rows ++ [maskRow row] })) ∧
    (rhas row COL_CONSENT = false → consentOf row = "") := by
  constructor
  · cases ho : strStarts (consentOf row) "oui" with
    | true => exact Or.inl ⟨rfl, processRow_public s row hkeep ho⟩
    | false =>
      cases hn : strStarts (consentOf row) "non" with
      | true => exact Or.inr (Or.inl ⟨rfl, rfl, processRow_excluded s row hkeep ho hn⟩)
      | false => exact Or.inr (Or.inr ⟨rfl, rfl, processRow_pending s row hkeep ho hn⟩)
  · intro h
    unfold consentOf
    rw [rget_of_not_rhas _ _ h]
    rfl

/-- Witness for C2: a kept "Oui" row lands in the public branch. -/
theorem claim2_consent_trichotomy_witness :
    discardRow wPublic = false ∧
      processRow initState wPublic =
        { initState with public_rows := initState.public_rows ++ [wPublic] } := by
  refine ⟨by decide, ?_⟩
  rcases (claim2_consent_trichotomy initState wPublic (by decide)).1 with h | h | h
  · exact h.2
  · exact absurd h.1 (by decide)
  · exact absurd h.1 (by decide)

/-- C3: in a pending row the redactor overwrites every sensitive field
the record carries with its Placeholder Map value, which is the fixed
substitute for the mapped fields and the empty string for sensitive
fields absent from the map. -/
theorem claim3_pending_sensitive_masked (row : Row) (col : String)
    (_hpend : isPendingRow row = true)
    (hcol : col ∈ COLS_SENSITIVE)
    (hhas : rhas row col = true) :
    rget (maskRow row) col = placeholderGet col ∧
      (col ∈ PLACEHOLDER.map Prod.fst ∨ placeholderGet col = "") := by
  constructor
  · rw [maskRow_eq_maskFold]
    exact rget_maskFold_mem _ _ _ hcol hhas
  · by_cases h : col ∈ PLACEHOLDER.map Prod.fst
    · exact Or.inl h
    · refine Or.inr ?_
      unfold placeholderGet
      cases hf : PLACEHOLDER.find? (fun p => p.1 == col) with
      | none => rfl
      | some p =>
        have hpc := List.find?_some hf
        have hmem := List.mem_of_find?_eq_some hf
        exact absurd (List.mem_map.mpr ⟨p, hmem, by simpa using hpc⟩) h

/-- Witness for C3: the pending row `wPending` gets the fixed placeholder
address in its email field. -/
theorem claim3_pending_sensitive_masked_witness :
    isPendingRow wPending = true ∧ COL_EMAIL ∈ COLS_SENSITIVE ∧
      rhas wPending COL_EMAIL = true ∧
      rget (maskRow wPending) COL_EMAIL = placeholderGet COL_EMAIL :=
  ⟨by decide, by decide, by decide,
    (claim3_pending_sensitive_masked wPending COL_EMAIL
      (by decide) (by decide) (by decide)).1⟩

/-- C4: the field redactor is a pure function on records: every field
outside the Sensitive Field Set keeps its value, the key sequence of the
record is unchanged, and equal inputs give equal masked records (the
embedding is purely functional, so the input record itself cannot be
mutated by the call). -/
theorem claim4_redactor_frame_pure (row : Row) (col : String)
    (hcol : col ∉ COLS_SENSITIVE) :
    rget (maskRow row) col = rget row col ∧
      (maskRow row).map Prod.fst = row.map Prod.fst ∧
      ∀ row' : Row, row' = row → maskRow row' = maskRow row := by
  refine ⟨?_, ?_, ?_⟩
  · rw [maskRow_eq_maskFold]
    exact rget_maskFold_not_mem _ _ _ hcol
  · rw [maskRow_eq_maskFold]
    exact keys_maskFold _ _
  · intro row' h
    rw [h]

/-- Witness for C4: the first-name field survives masking unchanged. -/
theorem claim4_redactor_frame_pure_witness :
    COL_PRENOM ∉ COLS_SENSITIVE ∧
      rget (maskRow wPending) COL_PRENOM = rget wPending COL_PRENOM :=
  ⟨by decide, (claim4_redactor_frame_pure wPending COL_PRENOM (by decide)).1⟩

/-- C5: the output table is the header row, then the public rows in input
order, then the masked pending rows in input order, then the single
statistics record, each serialized against the full original header list;
a record value is read per header (missing keys serialize as the empty
string) so extra record keys are silently dropped and every output row
has one cell per header. -/
theorem claim5_output_order_and_serialization (headers : List String) (rows : List Row)
    (h1 : COL_PRENOM ∈ headers) (h2 : COL_NOM ∈ headers) (h3 : COL_CONSENT ∈ headers) :
    prepare_public_csv headers rows =
      Except.ok (headers ::
        (rows.filter isPublicRow ++ (rows.filter isPendingRow).map maskRow ++
          [stats_row headers (excludedStatsOf rows)]).map (writeRow headers)) ∧
    (∀ r : Row, (writeRow headers r).length = headers.length) ∧
    (∀ (r : Row) (k : String), rhas r k = false → rget r k = "") ∧
    (∀ a b : Row, (∀ h ∈ headers, rget a h = rget b h) →
      writeRow headers a = writeRow headers b) := by
  refine ⟨?_, ?_, ?_, ?_⟩
  · exact prepare_public_csv_ok headers rows
      ((firstMissing_eq_none_iff headers).mpr ⟨h1, h2, h3⟩)
  · intro r
    exact List.length_map _ _
  · intro r k hk
    exact rget_of_not_rhas r k hk
  · intro a b hab
    unfold writeRow
    rw [List.map_eq_map_iff]
    exact hab

/-- Witness for C5: the three-member run is assembled in the stated
order. -/
theorem claim5_output_order_and_serialization_witness :
    (COL_PRENOM ∈ exHeaders ∧ COL_NOM ∈ exHeaders ∧ COL_CONSENT ∈ exHeaders) ∧
      prepare_public_csv exHeaders [exRow1n, exRow2n, exRow3n] =
        Except.ok (exHeaders ::
          ([exRow1n, exRow2n, exRow3n].filter isPublicRow ++
            ([exRow1n, exRow2n, exRow3n].filter isPendingRow).map maskRow ++
            [stats_row exHeaders (excludedStatsOf [exRow1n, exRow2n, exRow3n])]).map
            (writeRow exHeaders)) :=
  ⟨⟨by decide, by decide, by decide⟩,
    (claim5_output_order_and_serialization exHeaders [exRow1n, exRow2n, exRow3n]
      (by decide) (by decide) (by decide)).1⟩

/-- C6: every successful export ends in exactly one statistics record: the
table is the real rows followed by one serialized stats row, which is
built from the counters of the full pass (so after all rows were visited,
bypassing classification and redaction), carries the sentinel marker in
the first-name field, the packed counters in the email field, the tag
"stats" in the consent field, and the empty string everywhere else. -/
theorem claim6_stats_record_shape_and_position (headers : List String)
    (rows : List Row) (table : List (List String))
    (hok : prepare_public_csv headers rows = Except.ok table) :
    table = (headers ::
        (rows.filter isPublicRow ++ (rows.filter isPendingRow).map maskRow).map
          (writeRow headers)) ++
        [writeRow headers (stats_row headers (excludedStatsOf rows))] ∧
    table.getLast? =
      some (writeRow headers (stats_row headers (excludedStatsOf rows))) ∧
    rget (stats_row headers (excludedStatsOf rows)) COL_PRENOM = STATS_ROW_MARKER ∧
    rget (stats_row headers (excludedStatsOf rows)) COL_EMAIL =
      packedCounts (excludedStatsOf rows) ∧
    rget (stats_row headers (excludedStatsOf rows)) COL_CONSENT = "stats" ∧
    rget (stats_row headers (excludedStatsOf rows)) COL_NOM = "" ∧
    (∀ k : String, ¬(k = COL_PRENOM) → ¬(k = COL_NOM) → ¬(k = COL_EMAIL) →
      ¬(k = COL_CONSENT) → rget (stats_row headers (excludedStatsOf rows)) k = "") := by
  have htable : table = (headers ::
      (rows.filter isPublicRow ++ (rows.filter isPendingRow).map maskRow).map
        (writeRow headers)) ++
      [writeRow headers (stats_row headers (excludedStatsOf rows))] := by
    cases hfm : firstMissing headers with
    | some c => simp [prepare_public_csv, hfm] at hok
    | none =>
      rw [prepare_public_csv_ok headers rows hfm] at hok
      rw [Except.ok.injEq] at hok
      subst hok
      simp [List.map_append]
  refine ⟨htable, ?_, rget_stats_row_prenom _ _, rget_stats_row_email _ _,
    rget_stats_row_consent _ _, rget_stats_row_nom _ _,
    fun k hk1 hk2 hk3 hk4 => rget_stats_row_other _ _ k hk1 hk2 hk3 hk4⟩
  rw [htable]
  exact List.getLast?_concat _

/-- Witness for C6: the concrete three-member run. -/
theorem claim6_stats_record_shape_and_position_witness :
    prepare_public_csv exHeaders [exRow1n, exRow2n, exRow3n] =
      Except.ok [exHeaders,
        ["A", "", "Oui", "a@x.com", "Régulier"],
        ["C", "", "", "membre@rsn-placeholder.ca", "Partenaire"],
        [STATS_ROW_MARKER, "", "stats", "1,0,1,0", ""]] ∧
      ([exHeaders,
        ["A", "", "Oui", "a@x.com", "Régulier"],
        ["C", "", "", "membre@rsn-placeholder.ca", "Partenaire"],
        [STATS_ROW_MARKER, "", "stats", "1,0,1,0", ""]] :
          List (List String)).getLast? =
        some (writeRow exHeaders
          (stats_row exHeaders (excludedStatsOf [exRow1n, exRow2n, exRow3n]))) :=
  ⟨rfl,
    (claim6_stats_record_shape_and_position exHeaders [exRow1n, exRow2n, exRow3n]
      _ rfl).2.1⟩

/-- C7: a row whose first and last name are both blank after trimming is
inert: the loop step returns the state unchanged, and deleting the row
from the input leaves the whole export (all three output segments and the
counters) identical. -/
theorem claim7_nameless_rows_inert (headers : List String) (pre post : List Row)
    (s : ExportState) (row : Row) (hdisc : discardRow row = true) :
    processRow s row = s ∧
      prepare_public_csv headers (pre ++ row :: post) =
        prepare_public_csv headers (pre ++ post) := by
  have h1 := processRow_discard s row hdisc
  refine ⟨h1, ?_⟩
  have h2 : (pre ++ row :: post).foldl processRow initState =
      (pre ++ post).foldl processRow initState := by
    rw [List.foldl_append, List.foldl_append, List.foldl_cons,
      processRow_discard _ row hdisc]
  unfold prepare_public_csv
  rw [h2]

/-- Witness for C7: a nameless row with consent "Non" changes nothing,
whatever its consent and membership type said. -/
theorem claim7_nameless_rows_inert_witness :
    discardRow wNameless = true ∧
      prepare_public_csv exHeaders ([] ++ wNameless :: [wPublic]) =
        prepare_public_csv exHeaders ([] ++ [wPublic]) :=
  ⟨by decide,
    (claim7_nameless_rows_inert exHeaders [] [wPublic] initState wNameless
      (by decide)).2⟩

/-- C8: when the three required columns are present the run produces an
output table; when any is missing the run fails before any row is looked
at — the error value does not depend on the rows, and no output is
produced for any row list. -/
theorem claim8_required_columns_fatal (headers : List String) :
    ((COL_PRENOM ∈ headers ∧ COL_NOM ∈ headers ∧ COL_CONSENT ∈ headers) →
      ∀ rows : List Row, ∃ table, prepare_public_csv headers rows = Except.ok table) ∧
    (¬(COL_PRENOM ∈ headers ∧ COL_NOM ∈ headers ∧ COL_CONSENT ∈ headers) →
      ∃ c, (c = COL_PRENOM ∨ c = COL_NOM ∨ c = COL_CONSENT) ∧ c ∉ headers ∧
        ∀ rows : List Row, prepare_public_csv headers rows = Except.error c) := by
  constructor
  · intro h rows
    exact ⟨_, prepare_public_csv_ok headers rows
      ((firstMissing_eq_none_iff headers).mpr h)⟩
  · intro h
    cases hfm : firstMissing headers with
    | none => exact absurd ((firstMissing_eq_none_iff headers).mp hfm) h
    | some c =>
      refine ⟨c, ?_, ?_, ?_⟩
      · have hmem := List.mem_of_find?_eq_some hfm
        simpa using hmem
      · have hp : headers.contains c = false := by
          simpa using List.find?_some hfm
        intro hc
        rw [(contains_eq_true_iff headers c).mpr hc] at hp
        cases hp
      · intro rows
        unfold prepare_public_csv
        rw [hfm]

/-- Witness for C8: full headers succeed; headers missing the consent
column fail with that column's name, for any row list. -/
theorem claim8_required_columns_fatal_witness :
    (∃ table, prepare_public_csv exHeaders [wPublic] = Except.ok table) ∧
      prepare_public_csv badHeaders [wPublic] = Except.error COL_CONSENT := by
  constructor
  · exact (claim8_required_columns_fatal exHeaders).1 ⟨by decide, by decide, by decide⟩ [wPublic]
  · rcases (claim8_required_columns_fatal badHeaders).2 (by decide) with
      ⟨c, hc, hnotin, hall⟩
    rcases hc with rfl | rfl | rfl
    · exact absurd (by decide) hnotin
    · exact absurd (by decide) hnotin
    · exact hall [wPublic]

/-- C9 counterexample: taken literally, the three example rows carry no
first- or last-name field, so the empty-name guard discards all of them:
the export is just the header row and an all-zero statistics row — not
`[row1 unchanged, row3 masked, stats 1,0,1,0]` as claimed. -/
theorem claim9_example_counterexample :
    prepare_public_csv exHeaders [exRow1, exRow2, exRow3] =
      Except.ok [exHeaders, [STATS_ROW_MARKER, "", "stats", "0,0,0,0", ""]] ∧
    ¬ prepare_public_csv exHeaders [exRow1, exRow2, exRow3] =
      Except.ok [exHeaders,
        writeRow exHeaders exRow1,
        writeRow exHeaders (maskRow exRow3),
        [STATS_ROW_MARKER, "", "stats", "1,0,1,0", ""]] := by
  refine ⟨rfl, ?_⟩
  intro h
  have h0 : prepare_public_csv exHeaders [exRow1, exRow2, exRow3] =
      Except.ok [exHeaders, [STATS_ROW_MARKER, "", "stats", "0,0,0,0", ""]] := rfl
  have hls := Except.ok.inj (h0.symm.trans h)
  exact absurd hls (by decide)

/-- C9 amended: with the example rows additionally given a non-empty
first name (so the empty-name guard keeps them), the export is exactly
row 1 unchanged, row 3 with the email placeholder applied, and the
statistics row with total=1, regulier=0, etudiant=1, partenaire=0. -/
theorem claim9_example_amended :
    prepare_public_csv exHeaders [exRow1n, exRow2n, exRow3n] =
      Except.ok [exHeaders,
        ["A", "", "Oui", "a@x.com", "Régulier"],
        ["C", "", "", "membre@rsn-placeholder.ca", "Partenaire"],
        [STATS_ROW_MARKER, "", "stats", "1,0,1,0", ""]] ∧
    writeRow exHeaders exRow1n = ["A", "", "Oui", "a@x.com", "Régulier"] ∧
    writeRow exHeaders (maskRow exRow3n) =
      ["C", "", "", "membre@rsn-placeholder.ca", "Partenaire"] ∧
    packedCounts ⟨1, 0, 1, 0⟩ = "1,0,1,0" :=
  ⟨rfl, rfl, rfl, rfl⟩

/-- C10: the redactor never adds keys: masking keeps the record's key
sequence, so a sensitive column the record does not carry stays absent,
reads back as the empty string, and therefore serializes as the empty
string — even for the primary email column, whose Placeholder Map entry
is non-empty. -/
theorem claim10_redactor_never_adds_keys (row : Row) (col : String)
    (_hcol : col ∈ COLS_SENSITIVE) (habs : rhas row col = false) :
    (maskRow row).map Prod.fst = row.map Prod.fst ∧
      rhas (maskRow row) col = false ∧
      rget (maskRow row) col = "" ∧
      (∀ headers : List String, writeRow headers (maskRow row) =
        headers.map (fun h => rget (maskRow row) h)) ∧
      (col ∈ PLACEHOLDER.map Prod.fst → ¬(placeholderGet col = "")) := by
  refine ⟨?_, ?_, ?_, ?_, ?_⟩
  · rw [maskRow_eq_maskFold]
    exact keys_maskFold _ _
  · rw [maskRow_eq_maskFold, rhas_maskFold]
    exact habs
  · rw [maskRow_eq_maskFold, rget_maskFold_absent _ _ _ habs]
    exact rget_of_not_rhas _ _ habs
  · intro headers
    rfl
  · intro hmap
    rcases List.mem_map.mp hmap with ⟨p, hp, hpc⟩
    have hp' : p = (COL_EMAIL, "membre@rsn-placeholder.ca") ∨
        p = (COL_INSTITUTION, "Institution non divulguée") ∨
        p = (COL_STATUT, "Non divulgué") := by
      simpa [PLACEHOLDER] using hp
    rcases hp' with rfl | rfl | rfl <;>
      (rw [← hpc]; decide)

/-- Witness for C10: a pending row without an email binding keeps its two
keys and serializes an empty email cell although the map has a non-empty
placeholder for it. -/
theorem claim10_redactor_never_adds_keys_witness :
    COL_EMAIL ∈ COLS_SENSITIVE ∧ rhas wNoEmail COL_EMAIL = false ∧
      rget (maskRow wNoEmail) COL_EMAIL = "" :=
  ⟨by decide, by decide,
    (claim10_redactor_never_adds_keys wNoEmail COL_EMAIL
      (by decide) (by decide)).2.2.1⟩

end Bottin
